import Mathlib

/-!
Verification development for the `ape-polygon-zkevm` plugin
(`ape_polygon_zkevm/ecosystem.py`).

The plugin's reproducible core is the transaction normalizer:
`_get_transaction_type` (type-tag resolution), `_get_transaction_cls`
(transaction-class selection) and `PolygonZkEVM.create_transaction`
(field normalization pipeline).  This file shallowly embeds that code:

* Python strings are embedded as `List Char` (`PyStr`), so that the
  character-level operations of the source (`str.replace`, `str.rstrip`,
  f-string formatting, `bytes.hex()`, `eth_utils.add_0x_prefix`) become
  executable recursive functions that can be reasoned about by induction.
* The caller-supplied keyword mapping (`**kwargs`) is embedded as an
  association list from field names to dynamically typed Python values
  (`PyValue`), with `dict`-style get/set/delete operations.
* Fallible Python code (enum-constructor `ValueError`, `int(s, 16)`
  `ValueError`, `ApePolygonZkEVMError`) is embedded with `Except`/`Option`.
* The single ambient read of the active network connection
  (`self.network_manager.active_provider`) is passed explicitly as an
  `Option Int` parameter carrying that connection's configured
  `required_confirmations`.

The external enumeration `ape_ethereum.transactions.TransactionType`
(the spec's `TransactionTypeTag`) is modelled with its hex tag string
values `"0x00"`, `"0x01"`, `"0x02"`: the plugin's own code requires the
enum values to be such strings (line 109 constructs a member from an
`"0x"`-prefixed string, and the dead branch at line 99 applies `str`
methods to `TransactionType.STATIC.value`).
-/

deriving instance DecidableEq for Except

/-- A Python string, embedded character by character. -/
abbrev PyStr := List Char

/-- A dynamically typed Python value as it can appear in the `**kwargs`
mapping handled by `create_transaction`: `None`, `int`, `str`, `bytes`,
or an assembled `TransactionSignature` (fields `v`, `r`, `s`; the `r`/`s`
components have been passed through `bytes(...)`). -/
inductive PyValue where
  | pyNone
  | int (n : Int)
  | str (s : PyStr)
  | bytes (b : List Nat)
  | sig (v : PyValue) (r : List Nat) (s : List Nat)
deriving DecidableEq

/-- The `**kwargs` mapping: an insertion-ordered association list from
field names to values, as a Python `dict` (no duplicate keys arise from
`**kwargs`). -/
abbrev Kwargs := List (String × PyValue)

/-- `m.get(k)`: first binding of `k`, if any. -/
def getk : Kwargs → String → Option PyValue
  | [], _ => Option.none
  | (k', v) :: rest, k => if k' = k then some v else getk rest k

/-- `m[k] = v`: overwrite the binding in place if present, else append. -/
def setk : Kwargs → String → PyValue → Kwargs
  | [], k, v => [(k, v)]
  | (k', v') :: rest, k, v =>
    if k' = k then (k, v) :: rest else (k', v') :: setk rest k v

/-- `m.pop(k)`: remove the binding of `k`. -/
def delk (m : Kwargs) (k : String) : Kwargs :=
  m.filter (fun p => p.1 != k)

/-- `k in m`. -/
def hask (m : Kwargs) (k : String) : Bool :=
  (getk m k).isSome

theorem getk_setk_self (m : Kwargs) (k : String) (v : PyValue) :
    getk (setk m k v) k = some v := by
  induction m with
  | nil => simp [setk, getk]
  | cons p rest ih =>
    by_cases h : p.1 = k
    · simp [setk, h, getk]
    · simp [setk, h, getk, ih]

theorem getk_setk_ne (m : Kwargs) (k k' : String) (v : PyValue)
    (h : k' ≠ k) : getk (setk m k v) k' = getk m k' := by
  have hk : ¬ (k = k') := fun hh => h hh.symm
  induction m with
  | nil => simp [setk, getk, hk]
  | cons p rest ih =>
    by_cases hp : p.1 = k
    · subst hp
      simp [setk, getk, hk]
    · by_cases hp' : p.1 = k'
      · simp [setk, hp, getk, hp', hk, h]
      · simp [setk, hp, getk, hp', ih]

theorem delk_cons_ne (p : String × PyValue) (rest : Kwargs) (k : String)
    (hp : ¬ p.1 = k) : delk (p :: rest) k = p :: delk rest k := by
  simp [delk, List.filter_cons, hp]

theorem delk_cons_eq (p : String × PyValue) (rest : Kwargs) (k : String)
    (hp : p.1 = k) : delk (p :: rest) k = delk rest k := by
  simp [delk, List.filter_cons, hp]

theorem getk_delk_ne (m : Kwargs) (k k' : String) (h : k' ≠ k) :
    getk (delk m k) k' = getk m k' := by
  induction m with
  | nil => simp [delk, getk]
  | cons p rest ih =>
    by_cases hp : p.1 = k
    · rw [delk_cons_eq p rest k hp, ih]
      have hp' : ¬ p.1 = k' := fun hh => h (hh ▸ hp)
      simp [getk, hp']
    · rw [delk_cons_ne p rest k hp]
      by_cases hp' : p.1 = k'
      · simp [getk, hp']
      · simp [getk, hp', ih]

theorem getk_delk_self (m : Kwargs) (k : String) :
    getk (delk m k) k = Option.none := by
  induction m with
  | nil => simp [delk, getk]
  | cons p rest ih =>
    by_cases hp : p.1 = k
    · rw [delk_cons_eq p rest k hp]; exact ih
    · rw [delk_cons_ne p rest k hp]
      simp [getk, hp, ih]

/-- Decimal digit character, as produced by Python `str(int)`. -/
def decDigitChar (d : Nat) : Char :=
  match d with
  | 0 => '0' | 1 => '1' | 2 => '2' | 3 => '3' | 4 => '4'
  | 5 => '5' | 6 => '6' | 7 => '7' | 8 => '8' | _ => '9'

/-- Lowercase hexadecimal digit character, as produced by Python
`bytes.hex()` and `"%x"` formatting. -/
def hexDigitChar (d : Nat) : Char :=
  match d with
  | 0 => '0' | 1 => '1' | 2 => '2' | 3 => '3' | 4 => '4'
  | 5 => '5' | 6 => '6' | 7 => '7' | 8 => '8' | 9 => '9'
  | 10 => 'a' | 11 => 'b' | 12 => 'c' | 13 => 'd' | 14 => 'e' | _ => 'f'

/-- Little-endian decimal digits of `n`, with fuel (`fuel ≥ n ≥ 1` suffices
since a number has no more digits than its value). -/
def natDecAux : Nat → Nat → PyStr
  | 0, _ => []
  | _ + 1, 0 => []
  | fuel + 1, n + 1 => decDigitChar ((n + 1) % 10) :: natDecAux fuel ((n + 1) / 10)

/-- Decimal representation of a natural number, most significant digit first. -/
def natDecRepr (n : Nat) : PyStr :=
  if n = 0 then ['0'] else (natDecAux n n).reverse

/-- Python `str(n)` for an `int` `n`. -/
def pyIntRepr (n : Int) : PyStr :=
  if n < 0 then '-' :: natDecRepr (-n).toNat else natDecRepr n.toNat

/-- Python `bytes.hex()` for one byte: two lowercase hex digits. -/
def byteHexPair (b : Nat) : PyStr :=
  [hexDigitChar (b / 16 % 16), hexDigitChar (b % 16)]

/-- Python `bytes.hex()`: the concatenated two-digit hex of each byte. -/
def bytesHex (bs : List Nat) : PyStr :=
  (bs.map byteHexPair).flatten

/-- Python `s.replace("0x", "")`: delete every (non-overlapping,
left-to-right) occurrence of the substring `"0x"`. -/
def replaceAll0x : PyStr → PyStr
  | [] => []
  | [c] => [c]
  | c1 :: c2 :: rest =>
    if c1 = '0' ∧ c2 = 'x' then replaceAll0x rest
    else c1 :: replaceAll0x (c2 :: rest)

/-- Python `s.rstrip(chars)`: drop trailing characters that occur in
`chars`. -/
def pyRstrip (s chars : PyStr) : PyStr :=
  (s.reverse.dropWhile (fun c => chars.contains c)).reverse

/-- `eth_utils.add_0x_prefix`: return `s` unchanged when it already starts
with `"0x"` or `"0X"`, else prepend `"0x"`. -/
def add0x (s : PyStr) : PyStr :=
  match s with
  | '0' :: 'x' :: _ => s
  | '0' :: 'X' :: _ => s
  | _ => '0' :: 'x' :: s

/-- The external `ape_ethereum.transactions.TransactionType` enumeration
(the spec's `TransactionTypeTag`).  Its members are keyed by hex tag
strings; see the module docstring for why the values must be strings. -/
inductive TransactionType where
  | STATIC
  | ACCESS_LIST
  | DYNAMIC
deriving DecidableEq

/-- The underlying enum value (a hex tag string). -/
def TransactionType.value : TransactionType → PyStr
  | .STATIC => "0x00".data
  | .ACCESS_LIST => "0x01".data
  | .DYNAMIC => "0x02".data

/-- Python `str(member)` of the enum member, as interpolated into the
`ApePolygonZkEVMError` message by `_get_transaction_cls`. -/
def tagPyStr : TransactionType → PyStr
  | .STATIC => "TransactionType.STATIC".data
  | .ACCESS_LIST => "TransactionType.ACCESS_LIST".data
  | .DYNAMIC => "TransactionType.DYNAMIC".data

/-- The enum constructor `TransactionType(s)`: the member whose value is
`s`, if any (a Python `ValueError` otherwise). -/
def TransactionType.fromStr (s : PyStr) : Option TransactionType :=
  if s = TransactionType.STATIC.value then some .STATIC
  else if s = TransactionType.ACCESS_LIST.value then some .ACCESS_LIST
  else if s = TransactionType.DYNAMIC.value then some .DYNAMIC
  else Option.none

/-- Errors surfaced by the embedded code: Python `ValueError` (enum
construction, `int(s, 16)`, `bytes(negative)`), Python `TypeError`
(string/bytes operations on unsupported values), and the plugin's
`ApePolygonZkEVMError`.  The payload carries the offending string or the
error message. -/
inductive ApeError where
  | valueError (msg : PyStr)
  | typeError
  | apeZkError (msg : PyStr)
deriving DecidableEq

/-- Python truthiness of a `PyValue` (`bool(v)`): `None`, `0`, `""` and
`b""` are falsy. -/
def pyFalsyV : PyValue → Bool
  | .pyNone => true
  | .int n => n == 0
  | .str s => s.isEmpty
  | .bytes b => b.isEmpty
  | .sig _ _ _ => false

/-- Truthiness of `kwargs.get("type")`: an absent key yields `None`,
which is falsy. -/
def pyFalsy : Option PyValue → Bool
  | Option.none => true
  | some v => pyFalsyV v

/-- Lines 98-103 of `ecosystem.py`: coerce the (non-falsy) `_type` value
to a string.  `int` becomes `f"0{_type}"` (a zero prepended to the
*decimal* representation), `bytes` becomes `bytes.hex()`, `str` stays.
The `None` branch (line 99) is dead code because `None` is falsy, and is
kept as in the source (it substitutes `TransactionType.STATIC.value`).
Values without the string methods used afterwards raise a `TypeError`. -/
def typeStringOf : PyValue → Except ApeError PyStr
  | .pyNone => .ok TransactionType.STATIC.value
  | .int n => .ok ('0' :: pyIntRepr n)
  | .bytes b => .ok (bytesHex b)
  | .str s => .ok s
  | .sig _ _ _ => .error .typeError

/-- Lines 105-107 of `ecosystem.py`: `suffix = _type.replace("0x", "")`;
if the suffix is a single character, rebuild as
`f"{_type.rstrip(suffix)}0{suffix}"`. -/
def padSingle (s : PyStr) : PyStr :=
  if (replaceAll0x s).length = 1 then
    pyRstrip s (replaceAll0x s) ++ '0' :: replaceAll0x s
  else s

/-- `_get_transaction_type` (lines 94-109 of `ecosystem.py`).  Falsy input
resolves to `STATIC` immediately; otherwise the input is coerced to a
string, single-character suffixes are zero-padded, the `"0x"` prefix is
attached, and the enum constructor looks the tag up (raising `ValueError`
when the string is not a member value). -/
def _get_transaction_type (t : Option PyValue) : Except ApeError TransactionType :=
  if pyFalsy t then .ok TransactionType.STATIC
  else
    match t with
    | Option.none => .ok TransactionType.STATIC
    | some v =>
      match typeStringOf v with
      | .error e => .error e
      | .ok s0 =>
        match TransactionType.fromStr (add0x (padSingle s0)) with
        | some tt => .ok tt
        | Option.none => .error (.valueError (add0x (padSingle s0)))

/-- The fully normalized `"0x"`-prefixed string that `_get_transaction_type`
hands to the enum constructor, for a non-falsy input that reaches the
string pipeline (`none` for falsy inputs, which never reach it, and for
values the pipeline rejects with a `TypeError`). -/
def normalizedTypeStr (v : PyValue) : Option PyStr :=
  if pyFalsyV v then Option.none
  else
    match typeStringOf v with
    | .ok s0 => some (add0x (padSingle s0))
    | .error _ => Option.none

/-- The registered transaction construction classes; only the static-fee
class (`ape_ethereum.transactions.StaticFeeTransaction`) exists. -/
inductive TxClass where
  | staticFee
deriving DecidableEq

/-- The `transaction_types` registry literal of `_get_transaction_cls`
(lines 113-115): only `TransactionType.STATIC` is mapped. -/
def transactionTypesLookup : TransactionType → Option TxClass
  | .STATIC => some TxClass.staticFee
  | _ => Option.none

/-- The `ApePolygonZkEVMError` message
`f"Transaction type '{transaction_type}' not supported."`. -/
def apeZkMsg (t : TransactionType) : PyStr :=
  "Transaction type \x27".data ++ tagPyStr t ++ "\x27 not supported.".data

/-- `_get_transaction_cls` (lines 112-119 of `ecosystem.py`). -/
def _get_transaction_cls (t : TransactionType) : Except ApeError TxClass :=
  match transactionTypesLookup t with
  | some c => .ok c
  | Option.none => .error (.apeZkError (apeZkMsg t))

/-- Hexadecimal digit value of a character, if any (`0-9`, `a-f`, `A-F`). -/
def hexDigitVal (c : Char) : Option Nat :=
  if '0' ≤ c ∧ c ≤ '9' then some (c.toNat - 48)
  else if 'a' ≤ c ∧ c ≤ 'f' then some (c.toNat - 87)
  else if 'A' ≤ c ∧ c ≤ 'F' then some (c.toNat - 55)
  else Option.none

/-- Digit loop of Python `int(s, 16)`: consume hex digits, allowing a
single `'_'` strictly between digits. -/
def hexDigitsLoop (acc : Nat) : PyStr → Option Nat
  | [] => some acc
  | ['_'] => Option.none
  | '_' :: c :: rest =>
    match hexDigitVal c with
    | some d => hexDigitsLoop (16 * acc + d) rest
    | Option.none => Option.none
  | c :: rest =>
    match hexDigitVal c with
    | some d => hexDigitsLoop (16 * acc + d) rest
    | Option.none => Option.none

/-- Nonempty digit run of Python `int(s, 16)`; `allowUnd` permits one
leading `'_'` (legal directly after a `0x` prefix). -/
def parseHexBody (allowUnd : Bool) (s : PyStr) : Option Nat :=
  match s with
  | [] => Option.none
  | '_' :: rest =>
    if allowUnd then
      match rest with
      | [] => Option.none
      | c :: rest2 =>
        match hexDigitVal c with
        | some d => hexDigitsLoop d rest2
        | Option.none => Option.none
    else Option.none
  | c :: rest =>
    match hexDigitVal c with
    | some d => hexDigitsLoop d rest
    | Option.none => Option.none

/-- Optional `0x`/`0X` prefix of a base-16 literal. -/
def parseHexMagnitude (s : PyStr) : Option Nat :=
  match s with
  | '0' :: 'x' :: rest => parseHexBody true rest
  | '0' :: 'X' :: rest => parseHexBody true rest
  | _ => parseHexBody false s

/-- Python whitespace stripped by `int(...)`. -/
def isPySpace (c : Char) : Bool :=
  c = ' ' || c = '\t' || c = '\n' || c = '\r' || c = '\x0b' || c = '\x0c'

/-- Python `s.strip()` over the whitespace set above. -/
def stripWS (s : PyStr) : PyStr :=
  ((s.dropWhile isPySpace).reverse.dropWhile isPySpace).reverse

/-- Python `int(s, 16)`: surrounding whitespace, an optional sign, an
optional `0x`/`0X` prefix, then a nonempty run of hex digits with single
underscores between digits.  `none` is the `ValueError` case. -/
def pyIntHex (s : PyStr) : Option Int :=
  match stripWS s with
  | '+' :: rest => (parseHexMagnitude rest).map (fun n => (n : Int))
  | '-' :: rest => (parseHexMagnitude rest).map (fun n => -(n : Int))
  | rest => (parseHexMagnitude rest).map (fun n => (n : Int))

/-- Python `bytes(x)` as applied to the `r`/`s` signature components:
byte sequences pass through, a non-negative `int n` yields `n` zero
bytes, a negative `int` raises `ValueError`, and other values raise
`TypeError` (strings need an encoding argument). -/
def pyBytes : PyValue → Except ApeError (List Nat)
  | .bytes b => .ok b
  | .int n =>
    if n < 0 then .error (.valueError "negative count".data)
    else .ok (List.replicate n.toNat 0)
  | _ => .error .typeError

/-- The default applied when `required_confirmations` is absent or `None`
(lines 71-74): `0`, unless a network connection is active, in which case
that connection's configured `required_confirmations`. -/
def defaultRequiredConfirmations : Option Int → Int
  | Option.none => 0
  | some rc => rc

/-- Lines 69-76 of `ecosystem.py`: default `required_confirmations` when
the field is absent or explicitly `None`. -/
def confStep (activeRc : Option Int) (m : Kwargs) : Kwargs :=
  if getk m "required_confirmations" = Option.none
      ∨ getk m "required_confirmations" = some PyValue.pyNone then
    setk m "required_confirmations" (.int (defaultRequiredConfirmations activeRc))
  else m

/-- Lines 78-79 of `ecosystem.py`: a string `chainId` is reinterpreted
with `int(s, 16)`; an unparsable string raises `ValueError`. -/
def chainIdStep (m : Kwargs) : Except ApeError Kwargs :=
  match getk m "chainId" with
  | some (.str s) =>
    match pyIntHex s with
    | some z => .ok (setk m "chainId" (.int z))
    | Option.none => .error (.valueError s)
  | _ => .ok m

/-- Lines 81-82 of `ecosystem.py`: `kwargs["data"] = kwargs.pop("hash")`. -/
def hashStep (m : Kwargs) : Kwargs :=
  match getk m "hash" with
  | some v => setk (delk m "hash") "data" v
  | Option.none => m

/-- Lines 84-89 of `ecosystem.py`: when `v`, `r` and `s` are all present,
assemble `kwargs["signature"] = TransactionSignature(v, bytes(r), bytes(s))`
(evaluating `bytes(r)` before `bytes(s)`, as in the source). -/
def sigStep (m : Kwargs) : Except ApeError Kwargs :=
  if hask m "v" && hask m "r" && hask m "s" then
    match getk m "v", getk m "r", getk m "s" with
    | some vv, some rv, some sv =>
      match pyBytes rv, pyBytes sv with
      | .ok rb, .ok sb => .ok (setk m "signature" (.sig vv rb sb))
      | .error e, _ => .error e
      | .ok _, .error e => .error e
    | _, _, _ => .ok m
  else .ok m

/-- The constructed transaction: the selected class together with the
normalized field mapping handed to `txn_class.parse_obj` (whose own
schema validation belongs to the external transaction API). -/
structure Transaction where
  cls : TxClass
  fields : Kwargs
deriving DecidableEq

/-- `PolygonZkEVM.create_transaction` (lines 54-91 of `ecosystem.py`).
`activeRc` is the ambient read of the active network connection's
configured `required_confirmations` (`none` when no connection is
active).  The `kwargs["type"]` overwrite (line 66) happens before the
class lookup (line 67) in the source; the two are independent, so the
class lookup is sequenced first here to keep the mapping rewrites
contiguous. -/
def create_transaction (activeRc : Option Int) (kwargs : Kwargs) :
    Except ApeError Transaction :=
  match _get_transaction_type (getk kwargs "type") with
  | .error e => .error e
  | .ok transaction_type =>
    match _get_transaction_cls transaction_type with
    | .error e => .error e
    | .ok txn_class =>
      match chainIdStep (confStep activeRc
          (setk kwargs "type" (PyValue.str transaction_type.value))) with
      | .error e => .error e
      | .ok kwargs3 =>
        match sigStep (hashStep kwargs3) with
        | .error e => .error e
        | .ok kwargs5 => .ok ⟨txn_class, kwargs5⟩

/-- The 22 hexadecimal digit characters. -/
def hexDigitChars : PyStr := "0123456789abcdefABCDEF".data

/-- Little-endian hexadecimal digits of `n`, with fuel. -/
def natHexAux : Nat → Nat → PyStr
  | 0, _ => []
  | _ + 1, 0 => []
  | fuel + 1, n + 1 => hexDigitChar ((n + 1) % 16) :: natHexAux fuel ((n + 1) / 16)

/-- Hexadecimal representation of a natural number, most significant
digit first. -/
def natHexRepr (n : Nat) : PyStr :=
  if n = 0 then ['0'] else (natHexAux n n).reverse

/-- The formatting the spec's claim asserts for integer type input
(refinement-side definition, following the spec's words): the hex digits
of `n`, left-padded to two hex digits, with a `"0x"` prefix. -/
def specPaddedHexByte (n : Int) : PyStr :=
  '0' :: 'x' ::
    (if (natHexRepr n.toNat).length = 1 then '0' :: natHexRepr n.toNat
     else natHexRepr n.toNat)

/-- Whether a `create_transaction` result carries an integer `type`
field. -/
def typeFieldIsInt (r : Except ApeError Transaction) : Bool :=
  match r with
  | .ok tx =>
    match getk tx.fields "type" with
    | some (.int _) => true
    | _ => false
  | .error _ => false

theorem decDigitChar_ne_x (d : Nat) :
    decDigitChar d ≠ 'x' ∧ decDigitChar d ≠ 'X' := by
  unfold decDigitChar
  split <;> exact ⟨by decide, by decide⟩

theorem natDecAux_mem (fuel n : Nat) (c : Char) (h : c ∈ natDecAux fuel n) :
    ∃ d, c = decDigitChar d := by
  induction fuel generalizing n with
  | zero => simp [natDecAux] at h
  | succ fuel ih =>
    cases n with
    | zero => simp [natDecAux] at h
    | succ m =>
      rw [natDecAux] at h
      rcases List.mem_cons.mp h with h1 | h2
      · exact ⟨(m + 1) % 10, h1⟩
      · exact ih _ h2

theorem pyIntRepr_mem (n : Int) (c : Char) (h : c ∈ pyIntRepr n) :
    c ≠ 'x' ∧ c ≠ 'X' := by
  have hrepr : ∀ m : Nat, ∀ c' ∈ natDecRepr m, c' ≠ 'x' ∧ c' ≠ 'X' := by
    intro m c' hc'
    unfold natDecRepr at hc'
    split at hc'
    · rcases List.mem_singleton.mp hc' with rfl
      exact ⟨by decide, by decide⟩
    · rcases natDecAux_mem _ _ _ (List.mem_reverse.mp hc') with ⟨d, rfl⟩
      exact decDigitChar_ne_x d
  unfold pyIntRepr at h
  split at h
  · rcases List.mem_cons.mp h with rfl | h2
    · exact ⟨by decide, by decide⟩
    · exact hrepr _ _ h2
  · exact hrepr _ _ h

theorem natDecRepr_ne_nil (n : Nat) : natDecRepr n ≠ [] := by
  unfold natDecRepr
  split
  · simp
  · next hn =>
    cases n with
    | zero => exact absurd rfl hn
    | succ m =>
      rw [natDecAux]
      simp

theorem pyIntRepr_ne_nil (n : Int) : pyIntRepr n ≠ [] := by
  unfold pyIntRepr
  split
  · simp
  · exact natDecRepr_ne_nil _

theorem replaceAll0x_of_no_x (l : PyStr) (h : ∀ c ∈ l, c ≠ 'x') :
    replaceAll0x l = l := by
  induction l with
  | nil => rfl
  | cons c rest ih =>
    cases rest with
    | nil => rfl
    | cons c2 rest2 =>
      have hc2 : ¬ (c = '0' ∧ c2 = 'x') := by
        rintro ⟨-, rfl⟩
        exact h 'x' (List.mem_cons_of_mem _ (List.mem_cons_self _ _)) rfl
      rw [replaceAll0x, if_neg hc2, ih (fun c' hc' => h c' (List.mem_cons_of_mem _ hc'))]

theorem padSingle_of_long (s : PyStr) (hrep : replaceAll0x s = s)
    (hlen : s.length ≠ 1) : padSingle s = s := by
  unfold padSingle
  rw [hrep, if_neg hlen]

theorem add0x_of_ne (c : Char) (rest : PyStr) (hx : c ≠ 'x') (hX : c ≠ 'X') :
    add0x ('0' :: c :: rest) = '0' :: 'x' :: '0' :: c :: rest := by
  unfold add0x
  split
  · next heq => rw [List.cons.injEq, List.cons.injEq] at heq; exact absurd heq.2.1 hx
  · next heq => rw [List.cons.injEq, List.cons.injEq] at heq; exact absurd heq.2.1 hX
  · rfl

theorem confStep_getk_ne (activeRc : Option Int) (m : Kwargs) (k : String)
    (h : k ≠ "required_confirmations") :
    getk (confStep activeRc m) k = getk m k := by
  unfold confStep
  split
  · exact getk_setk_ne m _ k _ h
  · rfl

theorem chainIdStep_getk_ne (m m' : Kwargs) (k : String)
    (h : chainIdStep m = .ok m') (hk : k ≠ "chainId") :
    getk m' k = getk m k := by
  unfold chainIdStep at h
  split at h
  · split at h
    · cases h
      exact getk_setk_ne m _ k _ hk
    · cases h
  · cases h
    rfl

theorem hashStep_getk_ne (m : Kwargs) (k : String)
    (h1 : k ≠ "hash") (h2 : k ≠ "data") :
    getk (hashStep m) k = getk m k := by
  unfold hashStep
  split
  · rw [getk_setk_ne _ _ k _ h2, getk_delk_ne _ _ k h1]
  · rfl

theorem sigStep_getk_ne (m m' : Kwargs) (k : String)
    (h : sigStep m = .ok m') (hk : k ≠ "signature") :
    getk m' k = getk m k := by
  unfold sigStep at h
  split at h
  · split at h
    · split at h
      · cases h
        exact getk_setk_ne m _ k _ hk
      · cases h
      · cases h
    · cases h
      rfl
  · cases h
    rfl

theorem create_transaction_ok_destruct (activeRc : Option Int) (m : Kwargs)
    (tx : Transaction) (h : create_transaction activeRc m = .ok tx) :
    ∃ k3 k5,
      _get_transaction_type (getk m "type") = .ok TransactionType.STATIC ∧
      chainIdStep (confStep activeRc
        (setk m "type" (PyValue.str TransactionType.STATIC.value))) = .ok k3 ∧
      sigStep (hashStep k3) = .ok k5 ∧
      tx = ⟨TxClass.staticFee, k5⟩ := by
  unfold create_transaction at h
  split at h
  · cases h
  · next tt hty =>
    split at h
    · cases h
    · next cls hcls =>
      cases tt with
      | ACCESS_LIST => cases hcls
      | DYNAMIC => cases hcls
      | STATIC =>
        have hcls' : cls = TxClass.staticFee := by
          cases hcls
          rfl
        subst hcls'
        split at h
        · cases h
        · next k3 hk3 =>
          split at h
          · cases h
          · next k5 hk5 =>
            cases h
            exact ⟨k3, k5, hty, hk3, hk5, rfl⟩

theorem create_transaction_ok_field (activeRc : Option Int) (m : Kwargs)
    (tx : Transaction) (h : create_transaction activeRc m = .ok tx)
    (k : String) (h1 : k ≠ "chainId") (h2 : k ≠ "hash") (h3 : k ≠ "data")
    (h4 : k ≠ "signature") :
    getk tx.fields k =
      getk (confStep activeRc
        (setk m "type" (PyValue.str TransactionType.STATIC.value))) k := by
  rcases create_transaction_ok_destruct activeRc m tx h with ⟨k3, k5, -, hk3, hk5, rfl⟩
  calc getk k5 k
      = getk (hashStep k3) k := sigStep_getk_ne _ _ k hk5 h4
    _ = getk k3 k := hashStep_getk_ne _ k h2 h3
    _ = getk (confStep activeRc
          (setk m "type" (PyValue.str TransactionType.STATIC.value))) k :=
        chainIdStep_getk_ne _ _ k hk3 h1

theorem create_transaction_eq_of_static (activeRc : Option Int) (m : Kwargs)
    (h : _get_transaction_type (getk m "type") = .ok TransactionType.STATIC) :
    create_transaction activeRc m =
      match chainIdStep (confStep activeRc
        (setk m "type" (PyValue.str TransactionType.STATIC.value))) with
      | .error e => .error e
      | .ok k3 =>
        match sigStep (hashStep k3) with
        | .error e => .error e
        | .ok k5 => .ok ⟨TxClass.staticFee, k5⟩ := by
  unfold create_transaction
  rw [h]
  rfl

/-- C1 (counterexample): contrary to the claim, `_get_transaction_type`
itself raises an invalid-type error: integer input `3` is normalized to
the string `"0x03"`, which matches no `TransactionType` member, and the
enum constructor on line 109 raises `ValueError` inside type resolution,
before `_get_transaction_cls` is ever reached. -/
theorem c1_resolution_raises_counterexample :
    _get_transaction_type (some (PyValue.int 3)) =
      .error (.valueError "0x03".data) := by
  decide

/-- C1 (amended): type resolution itself validates membership: whenever a
non-falsy input is normalized to the string `s`, `_get_transaction_type`
returns the matching tag if `s` is a known `TransactionType` value and
raises the invalid-type `ValueError` otherwise; separately,
`_get_transaction_cls` raises the `ApePolygonZkEVMError` (carrying the
tag) for resolved tags with no registered class. -/
theorem c1_resolution_validates_membership :
    (∀ (v : PyValue) (s : PyStr), normalizedTypeStr v = some s →
      _get_transaction_type (some v) =
        (match TransactionType.fromStr s with
         | some tt => Except.ok tt
         | Option.none => Except.error (ApeError.valueError s)))
    ∧ (∀ t : TransactionType, t ≠ TransactionType.STATIC →
        _get_transaction_cls t = .error (.apeZkError (apeZkMsg t))) := by
  constructor
  · intro v s hs
    unfold normalizedTypeStr at hs
    split at hs
    · cases hs
    · next hf =>
      have hfv : pyFalsyV v = false := by
        cases hpv : pyFalsyV v
        · rfl
        · exact absurd hpv hf
      split at hs
      · next s0 hts =>
        rw [Option.some.injEq] at hs
        subst hs
        unfold _get_transaction_type
        simp only [pyFalsy, hfv, Bool.false_eq_true, if_false]
        rw [hts]
      · cases hs
  · intro t ht
    cases t
    · exact absurd rfl ht
    · rfl
    · rfl

theorem c1_membership_witness :
    _get_transaction_type (some (PyValue.int 3)) =
      (match TransactionType.fromStr "0x03".data with
       | some tt => Except.ok tt
       | Option.none => Except.error (ApeError.valueError "0x03".data))
    ∧ _get_transaction_cls TransactionType.ACCESS_LIST =
        .error (.apeZkError (apeZkMsg TransactionType.ACCESS_LIST)) :=
  ⟨c1_resolution_validates_membership.1 (PyValue.int 3) "0x03".data (by decide),
   c1_resolution_validates_membership.2 TransactionType.ACCESS_LIST (by decide)⟩

/-- C2 (counterexample): integer input `10` is formatted (line 101's
`f"0{_type}"`) by prepending `"0"` to the *decimal* representation,
yielding the normalized string `"0x010"`, which is not the zero-padded
one-byte hex string `"0x0a"` the claim asserts. -/
theorem c2_not_hex_counterexample :
    normalizedTypeStr (PyValue.int 10) = some "0x010".data
    ∧ specPaddedHexByte 10 = "0x0a".data
    ∧ normalizedTypeStr (PyValue.int 10) ≠ some (specPaddedHexByte 10) := by
  decide

/-- C2 (amended): for every non-zero integer type input `n`,
`_get_transaction_type` formats `n` by prepending a zero digit to `n`'s
*decimal* representation (so the matched string is `"0x0" + str(n)`);
this coincides with the claimed zero-padded one-byte hexadecimal form
exactly when the decimal and hex digits agree, i.e. for `1 ≤ n ≤ 9`. -/
theorem c2_int_formatting_decimal :
    (∀ n : Int, n ≠ 0 →
      normalizedTypeStr (PyValue.int n) = some ('0' :: 'x' :: '0' :: pyIntRepr n))
    ∧ (∀ n : Int, 1 ≤ n → n ≤ 9 →
      normalizedTypeStr (PyValue.int n) = some (specPaddedHexByte n)) := by
  constructor
  · intro n hn
    have hmem := pyIntRepr_mem n
    have hnil := pyIntRepr_ne_nil n
    obtain ⟨r0, rrest, hrep⟩ : ∃ a l, pyIntRepr n = a :: l := by
      cases hh : pyIntRepr n with
      | nil => exact absurd hh hnil
      | cons a l => exact ⟨a, l, rfl⟩
    have hfv : pyFalsyV (PyValue.int n) = false := by
      simp [pyFalsyV, hn]
    have hnox : ∀ c ∈ ('0' :: pyIntRepr n), c ≠ 'x' := by
      intro c hc
      rcases List.mem_cons.mp hc with rfl | hc2
      · decide
      · exact (hmem c hc2).1
    have hlen : ('0' :: pyIntRepr n).length ≠ 1 := by
      rw [hrep]
      simp
    have hpad : padSingle ('0' :: pyIntRepr n) = '0' :: pyIntRepr n :=
      padSingle_of_long _ (replaceAll0x_of_no_x _ hnox) hlen
    have hr0 := hmem r0 (by rw [hrep]; exact List.mem_cons_self _ _)
    unfold normalizedTypeStr
    simp only [hfv, Bool.false_eq_true, if_false, typeStringOf]
    rw [hpad, hrep, add0x_of_ne r0 rrest hr0.1 hr0.2]
  · intro n h1 h9
    interval_cases n <;> decide

theorem c2_int_formatting_witness :
    normalizedTypeStr (PyValue.int 10) = some ('0' :: 'x' :: '0' :: pyIntRepr 10)
    ∧ normalizedTypeStr (PyValue.int 3) = some (specPaddedHexByte 3) :=
  ⟨c2_int_formatting_decimal.1 10 (by decide),
   c2_int_formatting_decimal.2 3 (by decide) (by decide)⟩

/-- C4: a string type input that is an optional `"0x"` prefix followed by
exactly one hex digit is left-padded with a zero digit and resolves
exactly as the already-padded two-digit form does; in particular integer
`0`, string `"0x0"` and string `"0"` all resolve to the `STATIC` tag. -/
theorem c4_single_digit_padding :
    (∀ d ∈ hexDigitChars,
      normalizedTypeStr (PyValue.str ['0', 'x', d]) = some ['0', 'x', '0', d]
      ∧ normalizedTypeStr (PyValue.str [d]) = some ['0', 'x', '0', d]
      ∧ _get_transaction_type (some (PyValue.str ['0', 'x', d])) =
          _get_transaction_type (some (PyValue.str ['0', 'x', '0', d]))
      ∧ _get_transaction_type (some (PyValue.str [d])) =
          _get_transaction_type (some (PyValue.str ['0', d])))
    ∧ _get_transaction_type (some (PyValue.int 0)) = .ok TransactionType.STATIC
    ∧ _get_transaction_type (some (PyValue.str "0x0".data)) = .ok TransactionType.STATIC
    ∧ _get_transaction_type (some (PyValue.str "0".data)) = .ok TransactionType.STATIC := by
  decide

theorem c4_single_digit_padding_witness :
    normalizedTypeStr (PyValue.str ['0', 'x', 'a']) = some ['0', 'x', '0', 'a']
    ∧ normalizedTypeStr (PyValue.str ['a']) = some ['0', 'x', '0', 'a']
    ∧ _get_transaction_type (some (PyValue.str ['0', 'x', 'a'])) =
        _get_transaction_type (some (PyValue.str ['0', 'x', '0', 'a']))
    ∧ _get_transaction_type (some (PyValue.str ['a'])) =
        _get_transaction_type (some (PyValue.str ['0', 'a'])) :=
  c4_single_digit_padding.1 'a' (by decide)

/-- C5: `_get_transaction_cls` maps the `STATIC` tag to the static-fee
transaction class and raises `ApePolygonZkEVMError` on every other tag;
the error message embeds the offending tag (and determines it uniquely). -/
theorem c5_class_selection :
    _get_transaction_cls TransactionType.STATIC = .ok TxClass.staticFee
    ∧ (∀ t : TransactionType, t ≠ TransactionType.STATIC →
        _get_transaction_cls t = .error (.apeZkError (apeZkMsg t)))
    ∧ (∀ a b : TransactionType, apeZkMsg a = apeZkMsg b → a = b) := by
  refine ⟨rfl, ?_, ?_⟩
  · intro t ht
    cases t
    · exact absurd rfl ht
    · rfl
    · rfl
  · intro a b
    cases a <;> cases b <;> decide

theorem c5_class_selection_witness :
    _get_transaction_cls TransactionType.DYNAMIC =
      .error (.apeZkError (apeZkMsg TransactionType.DYNAMIC)) :=
  c5_class_selection.2.1 TransactionType.DYNAMIC (by decide)

/-- C7: every absent or falsy type input (absent key, `None`, integer
`0`, the empty string, the empty byte sequence) makes
`_get_transaction_type` return the `STATIC` tag immediately. -/
theorem c7_falsy_resolves_static :
    (∀ t : Option PyValue, pyFalsy t = true →
      _get_transaction_type t = .ok TransactionType.STATIC)
    ∧ _get_transaction_type Option.none = .ok TransactionType.STATIC
    ∧ _get_transaction_type (some PyValue.pyNone) = .ok TransactionType.STATIC
    ∧ _get_transaction_type (some (PyValue.int 0)) = .ok TransactionType.STATIC
    ∧ _get_transaction_type (some (PyValue.str [])) = .ok TransactionType.STATIC
    ∧ _get_transaction_type (some (PyValue.bytes [])) = .ok TransactionType.STATIC := by
  refine ⟨?_, by decide, by decide, by decide, by decide, by decide⟩
  intro t ht
  unfold _get_transaction_type
  rw [if_pos ht]

theorem c7_falsy_resolves_static_witness :
    _get_transaction_type (some (PyValue.bytes [])) = .ok TransactionType.STATIC :=
  c7_falsy_resolves_static.1 (some (PyValue.bytes [])) (by decide)

/-- C3 (counterexample): on the empty parameter mapping,
`create_transaction` succeeds and writes the resolved tag's underlying
*string* value `"0x00"` into the `type` field (line 66 assigns
`transaction_type.value`, the enum's hex tag string), not an integer as
the claim asserts. -/
theorem c3_type_field_not_int_counterexample :
    create_transaction Option.none [] =
      .ok ⟨TxClass.staticFee, [("type", PyValue.str "0x00".data),
        ("required_confirmations", PyValue.int 0)]⟩
    ∧ typeFieldIsInt (create_transaction Option.none []) = false := by
  decide

/-- C3 (amended): whenever `create_transaction` succeeds, the normalized
mapping's `type` field equals the resolved tag's underlying value — its
hex tag *string* (e.g. `"0x00"` for `STATIC`), not an integer — and so is
never the ambiguous unspecified (`None`/absent) state raw params may
carry. -/
theorem c3_type_field_is_resolved_value (activeRc : Option Int) (m : Kwargs)
    (tx : Transaction) (h : create_transaction activeRc m = .ok tx) :
    ∃ tt : TransactionType,
      _get_transaction_type (getk m "type") = .ok tt ∧
      getk tx.fields "type" = some (PyValue.str tt.value) := by
  rcases create_transaction_ok_destruct activeRc m tx h with ⟨k3, k5, hty, -, -, -⟩
  refine ⟨TransactionType.STATIC, hty, ?_⟩
  rw [create_transaction_ok_field activeRc m tx h "type"
      (by decide) (by decide) (by decide) (by decide),
    confStep_getk_ne _ _ _ (by decide)]
  exact getk_setk_self m "type" _

theorem c3_type_field_witness :
    ∃ tt : TransactionType,
      _get_transaction_type (getk ([] : Kwargs) "type") = .ok tt ∧
      getk (Transaction.mk TxClass.staticFee
        [("type", PyValue.str "0x00".data),
         ("required_confirmations", PyValue.int 0)]).fields "type" =
        some (PyValue.str tt.value) :=
  c3_type_field_is_resolved_value Option.none []
    ⟨TxClass.staticFee, [("type", PyValue.str "0x00".data),
      ("required_confirmations", PyValue.int 0)]⟩ (by decide)

/-- C6: when `required_confirmations` is absent or explicitly `None`,
`create_transaction` sets it to the active network connection's
configured value (`0` when no connection is active); a present, non-null
value is left unchanged. -/
theorem c6_required_confirmations_default (activeRc : Option Int) (m : Kwargs)
    (tx : Transaction) (h : create_transaction activeRc m = .ok tx) :
    ((getk m "required_confirmations" = Option.none ∨
      getk m "required_confirmations" = some PyValue.pyNone) →
      getk tx.fields "required_confirmations" =
        some (PyValue.int (defaultRequiredConfirmations activeRc)))
    ∧ (∀ v : PyValue, getk m "required_confirmations" = some v →
        v ≠ PyValue.pyNone →
        getk tx.fields "required_confirmations" = some v) := by
  have hfield := create_transaction_ok_field activeRc m tx h
    "required_confirmations" (by decide) (by decide) (by decide) (by decide)
  have hsetk : getk (setk m "type" (PyValue.str TransactionType.STATIC.value))
      "required_confirmations" = getk m "required_confirmations" :=
    getk_setk_ne m _ _ _ (by decide)
  constructor
  · intro habs
    rw [hfield]
    unfold confStep
    rw [hsetk, if_pos habs]
    exact getk_setk_self _ _ _
  · intro v hv hne
    rw [hfield]
    unfold confStep
    rw [hsetk, hv]
    have hcond : ¬ (some v = (Option.none : Option PyValue) ∨
        some v = some PyValue.pyNone) := by
      rintro (hc | hc)
      · cases hc
      · rw [Option.some.injEq] at hc
        exact hne hc
    rw [if_neg hcond, hsetk, hv]

theorem c6_required_confirmations_witness :
    getk (Transaction.mk TxClass.staticFee
      [("type", PyValue.str "0x00".data),
       ("required_confirmations", PyValue.int 0)]).fields
      "required_confirmations" =
      some (PyValue.int (defaultRequiredConfirmations Option.none)) :=
  (c6_required_confirmations_default Option.none []
    ⟨TxClass.staticFee, [("type", PyValue.str "0x00".data),
      ("required_confirmations", PyValue.int 0)]⟩ (by decide)).1 (Or.inl rfl)

/-- C8: a string `chainId` is reinterpreted as a base-16 integer
(`"0x45"` becomes decimal `69`, also end to end through
`create_transaction`); a string that is not valid base-16 turns into a
`ValueError` that propagates to the caller. -/
theorem c8_chain_id_base16 :
    (∀ (m : Kwargs) (s : PyStr) (z : Int),
      getk m "chainId" = some (PyValue.str s) → pyIntHex s = some z →
      chainIdStep m = .ok (setk m "chainId" (PyValue.int z)))
    ∧ (∀ (m : Kwargs) (s : PyStr),
      getk m "chainId" = some (PyValue.str s) → pyIntHex s = Option.none →
      chainIdStep m = .error (.valueError s))
    ∧ pyIntHex "0x45".data = some 69
    ∧ create_transaction Option.none [("chainId", PyValue.str "0x45".data)] =
        .ok ⟨TxClass.staticFee, [("chainId", PyValue.int 69),
          ("type", PyValue.str "0x00".data),
          ("required_confirmations", PyValue.int 0)]⟩
    ∧ (∀ (activeRc : Option Int) (m : Kwargs) (s : PyStr),
      _get_transaction_type (getk m "type") = .ok TransactionType.STATIC →
      getk m "chainId" = some (PyValue.str s) → pyIntHex s = Option.none →
      create_transaction activeRc m = .error (.valueError s)) := by
  refine ⟨?_, ?_, by decide, by decide, ?_⟩
  · intro m s z hm hp
    unfold chainIdStep
    rw [hm]
    exact (by rw [hp] :
      (match pyIntHex s with
       | some z => Except.ok (setk m "chainId" (PyValue.int z))
       | Option.none => Except.error (ApeError.valueError s)) =
        Except.ok (setk m "chainId" (PyValue.int z)))
  · intro m s hm hp
    unfold chainIdStep
    rw [hm]
    exact (by rw [hp] :
      (match pyIntHex s with
       | some z => Except.ok (setk m "chainId" (PyValue.int z))
       | Option.none => Except.error (ApeError.valueError s)) =
        Except.error (ApeError.valueError s))
  · intro activeRc m s hty hcid hp
    have hcid' : getk (confStep activeRc
        (setk m "type" (PyValue.str TransactionType.STATIC.value)))
        "chainId" = some (PyValue.str s) := by
      rw [confStep_getk_ne _ _ _ (by decide),
        getk_setk_ne _ _ _ _ (by decide), hcid]
    have hstep : chainIdStep (confStep activeRc
        (setk m "type" (PyValue.str TransactionType.STATIC.value))) =
        .error (.valueError s) := by
      unfold chainIdStep
      rw [hcid']
      exact (by rw [hp] :
        (match pyIntHex s with
         | some z => Except.ok (setk (confStep activeRc
             (setk m "type" (PyValue.str TransactionType.STATIC.value)))
             "chainId" (PyValue.int z))
         | Option.none => Except.error (ApeError.valueError s)) =
          Except.error (ApeError.valueError s))
    rw [create_transaction_eq_of_static activeRc m hty, hstep]

theorem c8_chain_id_base16_witness :
    chainIdStep [("chainId", PyValue.str "0x45".data)] =
      .ok (setk [("chainId", PyValue.str "0x45".data)] "chainId" (PyValue.int 69))
    ∧ create_transaction Option.none [("chainId", PyValue.str ['z', 'z'])] =
        .error (.valueError ['z', 'z']) :=
  ⟨c8_chain_id_base16.1 [("chainId", PyValue.str "0x45".data)] "0x45".data 69
      (by decide) (by decide),
   c8_chain_id_base16.2.2.2.2 Option.none [("chainId", PyValue.str ['z', 'z'])]
      ['z', 'z'] (by decide) (by decide) (by decide)⟩

/-- C9: when `v`, `r` and `s` are all present (with `r`/`s` byte
sequences), the signature step adds a `signature` field assembled from
`v`, `bytes(r)`, `bytes(s)`; when any of the three is missing the
mapping is returned untouched; and on success the step changes no field
other than `signature` — in particular `v`, `r`, `s` stay present and
unchanged. -/
theorem c9_signature_assembly :
    (∀ (m : Kwargs) (vv : PyValue) (rb sb : List Nat),
      getk m "v" = some vv → getk m "r" = some (PyValue.bytes rb) →
      getk m "s" = some (PyValue.bytes sb) →
      sigStep m = .ok (setk m "signature" (PyValue.sig vv rb sb)))
    ∧ (∀ m : Kwargs,
      ¬ (hask m "v" = true ∧ hask m "r" = true ∧ hask m "s" = true) →
      sigStep m = .ok m)
    ∧ (∀ (m m' : Kwargs) (k : String), sigStep m = .ok m' →
      k ≠ "signature" → getk m' k = getk m k) := by
  refine ⟨?_, ?_, fun m m' k h hk => sigStep_getk_ne m m' k h hk⟩
  · intro m vv rb sb hv hr hs
    have hv' : hask m "v" = true := by simp [hask, hv]
    have hr' : hask m "r" = true := by simp [hask, hr]
    have hs' : hask m "s" = true := by simp [hask, hs]
    unfold sigStep
    rw [hv', hr', hs', hv, hr, hs]
    rfl
  · intro m hcond
    have hfalse : (hask m "v" && hask m "r" && hask m "s") = false := by
      cases hv : hask m "v" <;> cases hr : hask m "r" <;>
        cases hs : hask m "s" <;> simp_all
    unfold sigStep
    rw [hfalse]
    rfl

theorem c9_signature_assembly_witness :
    sigStep [("v", PyValue.int 27), ("r", PyValue.bytes [1]),
        ("s", PyValue.bytes [2])] =
      .ok (setk [("v", PyValue.int 27), ("r", PyValue.bytes [1]),
        ("s", PyValue.bytes [2])] "signature"
        (PyValue.sig (PyValue.int 27) [1] [2]))
    ∧ sigStep [] = .ok [] :=
  ⟨c9_signature_assembly.1 [("v", PyValue.int 27), ("r", PyValue.bytes [1]),
      ("s", PyValue.bytes [2])] (PyValue.int 27) [1] [2] rfl rfl rfl,
   c9_signature_assembly.2.1 [] (by decide)⟩

/-- C10: whenever `create_transaction` returns successfully, the returned
transaction is an instance of the static-fee class and the resolved tag
is `STATIC` (the only tag registered in `_get_transaction_cls`); the
normalized `type` field carries the `STATIC` tag's value. -/
theorem c10_success_implies_static (activeRc : Option Int) (m : Kwargs)
    (tx : Transaction) (h : create_transaction activeRc m = .ok tx) :
    tx.cls = TxClass.staticFee
    ∧ _get_transaction_type (getk m "type") = .ok TransactionType.STATIC
    ∧ getk tx.fields "type" = some (PyValue.str TransactionType.STATIC.value) := by
  rcases create_transaction_ok_destruct activeRc m tx h with ⟨k3, k5, hty, hk3, hk5, htx⟩
  refine ⟨by rw [htx], hty, ?_⟩
  rw [create_transaction_ok_field activeRc m tx h "type"
      (by decide) (by decide) (by decide) (by decide),
    confStep_getk_ne _ _ _ (by decide)]
  exact getk_setk_self m "type" _

theorem c10_success_implies_static_witness :
    (Transaction.mk TxClass.staticFee
      [("type", PyValue.str "0x00".data),
       ("required_confirmations", PyValue.int 0)]).cls = TxClass.staticFee
    ∧ _get_transaction_type (getk ([] : Kwargs) "type") = .ok TransactionType.STATIC
    ∧ getk (Transaction.mk TxClass.staticFee
        [("type", PyValue.str "0x00".data),
         ("required_confirmations", PyValue.int 0)]).fields "type" =
        some (PyValue.str TransactionType.STATIC.value) :=
  c10_success_implies_static Option.none []
    ⟨TxClass.staticFee, [("type", PyValue.str "0x00".data),
      ("required_confirmations", PyValue.int 0)]⟩ (by decide)
